import Mathlib

/-!
Shallow embedding of the Backtest_Simulation execution engine
(`strategy.py`, `backtest.py`, with the orchestration glue of `main.py`).

Numeric values are modelled as rationals.  A pandas DataFrame is modelled
as a list of rows; the row label of the i-th row of a freshly built frame
is i (pandas RangeIndex).  Cells that can hold the float NaN sentinel are
modelled as `Option` fields.  Metric values can be the Python `None`, the
float `nan` / `inf` produced by numpy division, or an actual number;
`MVal` distinguishes those states.
-/

namespace Backtest

/-- One row of the externally produced market series:
`price` and `volume` columns (the timestamp plays no role). -/
structure MarketRow where
  price : ℚ
  volume : ℚ
deriving DecidableEq, Repr

/-- One row of the order-schedule frame built by
`TWAPStrategy.generate_orders`: the pandas row label, the copied market
columns (`none` models the NaN cells of rows created by `.at`
enlargement) and the `order_quantity` column. -/
structure SchedRow where
  label : Int
  price : Option ℚ
  volume : Option ℚ
  order_quantity : ℚ
deriving DecidableEq, Repr

/-- Python `range(s, e + 1)` as a list of integers. -/
def intRange (s e : Int) : List Int :=
  (List.range (e + 1 - s).toNat).map (fun (k : Nat) => s + (k : Int))

/-- Model of the pandas cell assignment `df.at[lbl, "order_quantity"] = q`
on a frame that already has the `order_quantity` column: if some row carries the label, every row with
that label is updated; otherwise pandas enlarges the frame, appending a
new row whose other cells are NaN. -/
def setOrderAt (rows : List SchedRow) (lbl : Int) (q : ℚ) : List SchedRow :=
  if rows.any (fun r => r.label = lbl) then
    rows.map (fun r => if r.label = lbl then { r with order_quantity := q } else r)
  else
    rows ++ [⟨lbl, none, none, q⟩]

/-- Model of `market_data.copy()` followed by the column assignment
`df_orders["order_quantity"] = 0.0`: the market frame with labels
`k, k+1, ...` and a zero order column. -/
def dfZeroOrders (k : Nat) : List MarketRow → List SchedRow
  | [] => []
  | m :: ms => ⟨(k : Int), some m.price, some m.volume, 0⟩ :: dfZeroOrders (k + 1) ms

/-- Constructor parameters of `TWAPStrategy`. -/
structure TWAPStrategy where
  total_order_quantity : ℚ
  start_index : Int
  end_index : Int
deriving DecidableEq, Repr

/-- Model of `TWAPStrategy.generate_orders`: equal slices of the total quantity
assigned by `.at` to every label in `range(start_index, end_index + 1)`
over a copy of the market frame (labels `0 .. N-1`). -/
def TWAPStrategy.generate_orders (st : TWAPStrategy) (market_data : List MarketRow) :
    List SchedRow :=
  let n_slices : Int := st.end_index - st.start_index + 1
  let qty_per_slice : ℚ :=
    if 0 < n_slices then st.total_order_quantity / (n_slices : ℚ) else 0
  (intRange st.start_index st.end_index).foldl
    (fun rows idx => setOrderAt rows idx qty_per_slice)
    (dfZeroOrders 0 market_data)

/-! ### The Backtester (`backtest.py`) -/

/-- One row of the frame the `Backtester` constructor receives and of its
working copy.  In the program flow of `main.py` the constructor receives
the schedule-augmented frame, so the row carries an `order_quantity`
cell; the three execution cells are (re)initialised by the constructor.
`executed_price` / `expected_price` are NaN-able floats, modelled as
`Option`. -/
structure BTRow where
  price : ℚ
  volume : ℚ
  order_quantity : ℚ
  executed_quantity : ℚ
  executed_price : Option ℚ
  expected_price : Option ℚ
deriving DecidableEq, Repr

/-- A pandas frame as the `Backtester` sees it: its rows (the label of
the i-th row is i) together with whether the `order_quantity` column is
present (reading an absent column raises `KeyError`). -/
structure DataFrame where
  hasOrderCol : Bool
  rows : List BTRow
deriving DecidableEq, Repr

structure Backtester where
  market_data : DataFrame
  slippage_factor : ℚ
deriving DecidableEq, Repr

/-- Model of the `Backtester` constructor: copy the frame and initialise the execution
columns (`executed_quantity = 0.0`, `executed_price = NaN`,
`expected_price = NaN`). -/
def Backtester.init (market_data : DataFrame) (slippage_factor : ℚ) : Backtester :=
  { market_data :=
      { market_data with
        rows := market_data.rows.map fun r =>
          { r with executed_quantity := 0, executed_price := none, expected_price := none } },
    slippage_factor := slippage_factor }

/-- The body of the `if order_qty > 0` branch of `Backtester.run`:
record expected price, slipped executed price and volume-capped fill in
the working-copy row. -/
def executeRow (r : BTRow) (order_qty slippage_factor : ℚ) : BTRow :=
  { r with
    expected_price := some r.price,
    executed_price := some (r.price * (1 + slippage_factor)),
    executed_quantity := min order_qty r.volume }

/-- The loop of `Backtester.run` over `df_orders.iterrows()` (pairs of
row label and `order_quantity`).  For a positive quantity the read
`market_data.at[idx, "volume"]` raises `KeyError` when the label is not
in the working copy; the rows mutated so far are kept (in-place
mutation), mirrored by returning them beside the error. -/
def Backtester.runRows (slippage_factor : ℚ) :
    List BTRow → List (Int × ℚ) → List BTRow × Option String
  | rows, [] => (rows, none)
  | rows, e :: rest =>
    if 0 < e.2 then
      if h : 0 ≤ e.1 ∧ e.1.toNat < rows.length then
        Backtester.runRows slippage_factor
          (rows.set e.1.toNat (executeRow (rows.get ⟨e.1.toNat, h.2⟩) e.2 slippage_factor))
          rest
      else (rows, some "KeyError")
    else Backtester.runRows slippage_factor rows rest

/-- Model of `Backtester.run(df_orders)`: mutate the working copy row by row;
the second component is the fault, `none` on normal completion. -/
def Backtester.run (bt : Backtester) (df_orders : List (Int × ℚ)) :
    Backtester × Option String :=
  let res := Backtester.runRows bt.slippage_factor bt.market_data.rows df_orders
  ({ bt with market_data := { bt.market_data with rows := res.1 } }, res.2)

/-- The row labels of a frame with RangeIndex `k, k+1, ...`: pairs the
order quantities with their labels, as `df_orders.iterrows()` yields
them. -/
def withLabels (k : Int) : List ℚ → List (Int × ℚ)
  | [] => []
  | q :: qs => (k, q) :: withLabels (k + 1) qs

/-- An order schedule aligned index-for-index with a RangeIndex frame. -/
def alignedOrders (qs : List ℚ) : List (Int × ℚ) := withLabels 0 qs

/-- Row iteration `df_orders.iterrows()` of a schedule frame: label and
order quantity of each row. -/
def ordersOf (sched : List SchedRow) : List (Int × ℚ) :=
  sched.map fun r => (r.label, r.order_quantity)

/-- Constructor input as `main.py` builds it, `Backtester(df_orders, ...)`:
the schedule frame (valid labels, so market cells present) becomes the
market data of the constructor, carrying the `order_quantity` column. -/
def schedToDF (sched : List SchedRow) : DataFrame :=
  { hasOrderCol := true,
    rows := sched.map fun r =>
      { price := r.price.getD 0, volume := r.volume.getD 0,
        order_quantity := r.order_quantity,
        executed_quantity := 0, executed_price := none, expected_price := none } }

/-! ### Metrics (`Backtester.calculate_metrics`) -/

/-- A metric value: Python `None`, the float `nan` / `±inf` that numpy
division can produce, or a number. -/
inductive MVal where
  | undefined : MVal
  | nan : MVal
  | pinf : MVal
  | ninf : MVal
  | val : ℚ → MVal
deriving DecidableEq, Repr

/-- IEEE-style subtraction on metric values (only `val - _` is ever
reached by the code; `undefined` operands are unreachable). -/
def MVal.sub : MVal → MVal → MVal
  | .val a, .val b => .val (a - b)
  | .val _, .nan => .nan
  | .val _, .pinf => .ninf
  | .val _, .ninf => .pinf
  | .nan, _ => .nan
  | _, .nan => .nan
  | .pinf, .pinf => .nan
  | .pinf, _ => .pinf
  | .ninf, .ninf => .nan
  | .ninf, _ => .ninf
  | .undefined, _ => .undefined
  | _, .undefined => .undefined

/-- numpy scalar division: finite quotient when the denominator is
nonzero, otherwise `nan` (0/0) or a signed infinity — a warning, never
an exception. -/
def npDiv (a b : ℚ) : MVal :=
  if b = 0 then (if a = 0 then .nan else if 0 < a then .pinf else .ninf)
  else .val (a / b)

/-- Python `str.upper()` (ASCII-relevant part). -/
def pyUpper (s : String) : String := ⟨s.data.map Char.toUpper⟩

/-- Model of `dropna` on the executed-price column followed by the filter
`executed_quantity > 0`: the filled set. -/
def filledRows (rows : List BTRow) : List BTRow :=
  (rows.filter fun r => r.executed_price.isSome).filter
    fun r => decide (0 < r.executed_quantity)

/-- Column sum of a frame. -/
def sumBy (rows : List BTRow) (f : BTRow → ℚ) : ℚ := (rows.map f).sum

/-- The benchmark preparation inside `calculate_metrics`:
`benchmark_type.upper() == "VWAP"` selects the volume-weighted price of
the entire frame (numpy division), anything else the column mean. -/
def benchmarkPrice (rows : List BTRow) (benchmark_type : String) : MVal :=
  if pyUpper benchmark_type = "VWAP" then
    npDiv (sumBy rows fun r => r.price * r.volume) (sumBy rows fun r => r.volume)
  else
    .val (sumBy rows (fun r => r.price) / (rows.length : ℚ))

structure Metrics where
  execution_cost : MVal
  slippage : MVal
  fill_rate : ℚ
deriving DecidableEq, Repr

/-- Model of `Backtester.calculate_metrics`: early empty-fill return, fill rate
from the `order_quantity` column of the constructor-supplied frame
(`KeyError` when that column is absent), benchmark, and the two
executed-quantity-weighted averages. -/
def Backtester.calculate_metrics (bt : Backtester) (benchmark_type : String) :
    Except String Metrics :=
  let data := bt.market_data
  let executed_rows := filledRows data.rows
  if executed_rows.isEmpty then
    .ok { execution_cost := .undefined, slippage := .undefined, fill_rate := 0 }
  else
    let total_executed_quantity := sumBy executed_rows fun r => r.executed_quantity
    if data.hasOrderCol then
      let total_order_quantity := sumBy data.rows fun r => r.order_quantity
      let fill_rate :=
        if 0 < total_order_quantity then total_executed_quantity / total_order_quantity else 0
      let benchmark_price := benchmarkPrice data.rows benchmark_type
      let avg_exec_price :=
        (sumBy executed_rows fun r => r.executed_price.getD 0 * r.executed_quantity) /
          total_executed_quantity
      let execution_cost := (MVal.val avg_exec_price).sub benchmark_price
      let avg_expected_price :=
        (sumBy executed_rows fun r => r.expected_price.getD 0 * r.executed_quantity) /
          total_executed_quantity
      let slippage := avg_exec_price - avg_expected_price
      .ok { execution_cost := execution_cost, slippage := .val slippage,
            fill_rate := fill_rate }
    else
      .error "KeyError: order_quantity"

/-! ### A store of frames, for the ownership / no-aliasing property

the constructor copies the frame of the caller; `run` mutates only the
working copy.  Mutation is made explicit by a store of frame values:
the constructor allocates a fresh slot holding the copy, `run` writes
only to the slot owned by the backtester. -/

abbrev Store := List DataFrame

def emptyDF : DataFrame := { hasOrderCol := false, rows := [] }

/-- The frame transformation of `Backtester.__init__` (copy plus fresh
execution columns). -/
def initFrame (df : DataFrame) : DataFrame :=
  { df with
    rows := df.rows.map fun r =>
      { r with executed_quantity := 0, executed_price := none, expected_price := none } }

/-- Construction at store level, `Backtester(market_data, ...)`: read the
frame of the caller, allocate a new slot with the initialised copy,
return the new store and the slot of the backtester. -/
def storeInit (σ : Store) (callerRef : Nat) : Store × Nat :=
  (σ ++ [initFrame (σ.getD callerRef emptyDF)], σ.length)

/-- Execution at store level: `run` mutates the frame in the slot of the
backtester in place (up to a possible `KeyError`). -/
def storeRun (slippage_factor : ℚ) (orders : List (Int × ℚ)) (σ : Store) (ref : Nat) :
    Store :=
  let df := σ.getD ref emptyDF
  let res := Backtester.runRows slippage_factor df.rows orders
  σ.set ref { df with rows := res.1 }

/-- A sequence of `run` calls on the same backtester. -/
def storeRunSeq (slippage_factor : ℚ) (ref : Nat) (scheds : List (List (Int × ℚ)))
    (σ : Store) : Store :=
  scheds.foldl (fun σ orders => storeRun slippage_factor orders σ ref) σ

/-! ### Spec-side formulas (§4.3 of the specification, written from its
words, to be compared with the embedded code) -/

/-- Spec: volume-weighted average price over the entire series. -/
def specVWAP (rows : List BTRow) : ℚ :=
  sumBy rows (fun r => r.price * r.volume) / sumBy rows (fun r => r.volume)

/-- Spec: arithmetic mean of the price column over the entire series. -/
def specMeanPrice (rows : List BTRow) : ℚ :=
  sumBy rows (fun r => r.price) / (rows.length : ℚ)

/-- Spec: total executed quantity over the filled set. -/
def specTotalExecuted (rows : List BTRow) : ℚ :=
  sumBy (filledRows rows) fun r => r.executed_quantity

/-- Spec: fill rate, `0` when the order-quantity total is `0`. -/
def specFillRate (rows : List BTRow) : ℚ :=
  if sumBy rows (fun r => r.order_quantity) = 0 then 0
  else specTotalExecuted rows / sumBy rows (fun r => r.order_quantity)

/-- Spec: executed-quantity-weighted average of the executed price over
the filled set. -/
def specAvgExecPrice (rows : List BTRow) : ℚ :=
  (sumBy (filledRows rows) fun r => r.executed_price.getD 0 * r.executed_quantity) /
    specTotalExecuted rows

/-- Spec: executed-quantity-weighted average of the expected price over
the filled set. -/
def specAvgExpectedPrice (rows : List BTRow) : ℚ :=
  (sumBy (filledRows rows) fun r => r.expected_price.getD 0 * r.executed_quantity) /
    specTotalExecuted rows

/-- Placeholder row for `List.getD` statements. -/
def dummyRow : BTRow := ⟨0, 0, 0, 0, none, none⟩

/-! ### Helper lemmas about `Backtester.run` -/

lemma get_append_mid (pre : List BTRow) (r : BTRow) (post : List BTRow)
    (h : pre.length < (pre ++ r :: post).length) :
    (pre ++ r :: post).get ⟨pre.length, h⟩ = r := by
  induction pre with
  | nil => rfl
  | cons a pre ih =>
    have h2 : pre.length < (pre ++ r :: post).length := by
      simp only [List.length_append, List.length_cons]
      omega
    simpa using ih h2

lemma set_append_mid (pre : List BTRow) (r v : BTRow) (post : List BTRow) :
    (pre ++ r :: post).set pre.length v = pre ++ v :: post := by
  induction pre with
  | nil => rfl
  | cons a pre ih => simp [ih]

/-- Effect of the `run` loop on a schedule aligned with a block of rows
starting right after `pre`: each row is executed against its own order
quantity, independently of the other periods. -/
lemma runRows_withLabels (slip : ℚ) :
    ∀ (qs : List ℚ) (pre post : List BTRow), post.length = qs.length →
      Backtester.runRows slip (pre ++ post) (withLabels (pre.length : Int) qs) =
        (pre ++ post.zipWith (fun r q => if 0 < q then executeRow r q slip else r) qs,
          none) := by
  intro qs
  induction qs with
  | nil =>
    intro pre post h
    have : post = [] := List.length_eq_zero.mp h
    subst this
    simp [withLabels, Backtester.runRows]
  | cons q qs ih =>
    intro pre post h
    cases post with
    | nil => simp at h
    | cons r post =>
      have htn : ((pre.length : Int)).toNat = pre.length := Int.toNat_natCast _
      have hlen : ((pre.length : Int)).toNat < (pre ++ r :: post).length := by
        rw [htn]
        simp [List.length_append]
      have hcond : 0 ≤ (pre.length : Int) ∧
          ((pre.length : Int)).toNat < (pre ++ r :: post).length :=
        ⟨Int.natCast_nonneg _, hlen⟩
      have hlab1 : (pre.length : Int) + 1 =
          (((pre ++ [executeRow r q slip]).length : Nat) : Int) := by
        rw [List.length_append]
        push_cast
        simp
      have hlab2 : (pre.length : Int) + 1 = (((pre ++ [r]).length : Nat) : Int) := by
        rw [List.length_append]
        push_cast
        simp
      have htail : post.length = qs.length := by
        simpa using h
      by_cases hq : 0 < q
      · rw [withLabels, Backtester.runRows, if_pos hq, dif_pos hcond]
        simp only [htn, get_append_mid pre r post, set_append_mid]
        rw [List.append_cons pre (executeRow r q slip) post, hlab1,
          ih (pre ++ [executeRow r q slip]) post htail]
        simp [List.append_assoc, if_pos hq]
      · rw [withLabels, Backtester.runRows, if_neg hq]
        rw [List.append_cons pre r post, hlab2, ih (pre ++ [r]) post htail]
        simp [List.append_assoc, if_neg hq]

/-- The `run` loop on a schedule aligned index-for-index with the
working copy: pointwise execution, no fault. -/
lemma runRows_aligned (slip : ℚ) (qs : List ℚ) (rows : List BTRow)
    (h : qs.length = rows.length) :
    Backtester.runRows slip rows (alignedOrders qs) =
      (rows.zipWith (fun r q => if 0 < q then executeRow r q slip else r) qs, none) := by
  have := runRows_withLabels slip qs [] rows h.symm
  simpa [alignedOrders] using this

lemma init_slippage (df : DataFrame) (s : ℚ) :
    (Backtester.init df s).slippage_factor = s := rfl

lemma init_rows (df : DataFrame) (s : ℚ) :
    (Backtester.init df s).market_data.rows = df.rows.map (fun r =>
      { r with executed_quantity := 0, executed_price := none, expected_price := none }) := rfl

lemma init_hasOrderCol (df : DataFrame) (s : ℚ) :
    (Backtester.init df s).market_data.hasOrderCol = df.hasOrderCol := rfl

lemma run_rows_eq (bt : Backtester) (orders : List (Int × ℚ)) :
    (bt.run orders).1.market_data.rows =
      (Backtester.runRows bt.slippage_factor bt.market_data.rows orders).1 := rfl

lemma run_err_eq (bt : Backtester) (orders : List (Int × ℚ)) :
    (bt.run orders).2 =
      (Backtester.runRows bt.slippage_factor bt.market_data.rows orders).2 := rfl

lemma run_hasOrderCol (bt : Backtester) (orders : List (Int × ℚ)) :
    (bt.run orders).1.market_data.hasOrderCol = bt.market_data.hasOrderCol := rfl

/-- The run loop `runRows` leaves the number of rows unchanged. -/
lemma runRows_length (slip : ℚ) :
    ∀ (ss : List (Int × ℚ)) (rows : List BTRow),
      (Backtester.runRows slip rows ss).1.length = rows.length := by
  intro ss
  induction ss with
  | nil => intro rows; simp [Backtester.runRows]
  | cons e rest ih =>
    intro rows
    rw [Backtester.runRows]
    by_cases hq : 0 < e.2
    · rw [if_pos hq]
      by_cases hc : 0 ≤ e.1 ∧ e.1.toNat < rows.length
      · rw [dif_pos hc, ih]
        simp
      · rw [dif_neg hc]
    · rw [if_neg hq, ih]

/-- The `run` loop finishes without a `KeyError` exactly when every
schedule entry with positive quantity carries a label inside the
index of the working copy. -/
lemma runRows_none_iff (slip : ℚ) :
    ∀ (ss : List (Int × ℚ)) (rows : List BTRow),
      (Backtester.runRows slip rows ss).2 = none ↔
        ∀ e ∈ ss, 0 < e.2 → 0 ≤ e.1 ∧ e.1.toNat < rows.length := by
  intro ss
  induction ss with
  | nil => intro rows; simp [Backtester.runRows]
  | cons e rest ih =>
    intro rows
    rw [Backtester.runRows]
    by_cases hq : 0 < e.2
    · rw [if_pos hq]
      by_cases hc : 0 ≤ e.1 ∧ e.1.toNat < rows.length
      · rw [dif_pos hc]
        rw [ih]
        simp only [List.length_set]
        constructor
        · intro hrest
          intro f hf hfq
          rcases List.mem_cons.mp hf with hfe | hfr
          · subst hfe; exact hc
          · exact hrest f hfr hfq
        · intro hall f hf hfq
          exact hall f (List.mem_cons_of_mem _ hf) hfq
      · rw [dif_neg hc]
        simp only []
        constructor
        · intro hnone; cases hnone
        · intro hall
          exact absurd (hall e (List.mem_cons_self _ _) hq) hc
    · rw [if_neg hq, ih]
      constructor
      · intro hrest f hf hfq
        rcases List.mem_cons.mp hf with hfe | hfr
        · subst hfe; exact absurd hfq hq
        · exact hrest f hfr hfq
      · intro hall f hf hfq
        exact hall f (List.mem_cons_of_mem _ hf) hfq

/-- Reading `getD` through `zipWith`, for indices inside both lists. -/
lemma zipWith_getD (f : BTRow → ℚ → BTRow) :
    ∀ (as : List BTRow) (bs : List ℚ) (p : Nat), p < as.length → p < bs.length →
      (List.zipWith f as bs).getD p dummyRow = f (as.getD p dummyRow) (bs.getD p 0) := by
  intro as
  induction as with
  | nil => intro bs p h1 h2; simp at h1
  | cons a as ih =>
    intro bs p h1 h2
    cases bs with
    | nil => simp at h2
    | cons b bs =>
      cases p with
      | zero => simp
      | succ p =>
        simp only [List.zipWith_cons_cons, List.getD_cons_succ]
        exact ih bs p (by simpa using h1) (by simpa using h2)

/-- Reading `getD` through a map over the rows. -/
lemma map_getD (f : BTRow → BTRow) :
    ∀ (as : List BTRow) (p : Nat), p < as.length →
      (as.map f).getD p dummyRow = f (as.getD p dummyRow) := by
  intro as
  induction as with
  | nil => intro p h; simp at h
  | cons a as ih =>
    intro p h
    cases p with
    | zero => simp
    | succ p =>
      simp only [List.map_cons, List.getD_cons_succ]
      exact ih p (by simpa using h)

/-! ### Claim theorems -/

/-- C1: for every market frame and every aligned order schedule,
`Backtester.run` completes without fault and, period by period: a
positive order quantity records the price of the period as expected price,
`price * (1 + slippage_factor)` as executed price and
`min(order_quantity, volume)` as executed quantity (no remainder is
carried to any later period — each period depends only on its own order
and volume); a non-positive order quantity leaves expected and executed
price undefined and executed quantity `0`. -/
theorem run_executes_aligned_schedule (df : DataFrame) (slip : ℚ) (qs : List ℚ)
    (h : qs.length = df.rows.length) :
    ∃ bt : Backtester,
      (Backtester.init df slip).run (alignedOrders qs) = (bt, none) ∧
      bt.market_data.rows.length = df.rows.length ∧
      ∀ p, p < df.rows.length →
        (0 < qs.getD p 0 →
          (bt.market_data.rows.getD p dummyRow).expected_price =
            some ((df.rows.getD p dummyRow).price) ∧
          (bt.market_data.rows.getD p dummyRow).executed_price =
            some ((df.rows.getD p dummyRow).price * (1 + slip)) ∧
          (bt.market_data.rows.getD p dummyRow).executed_quantity =
            min (qs.getD p 0) ((df.rows.getD p dummyRow).volume)) ∧
        (¬ 0 < qs.getD p 0 →
          (bt.market_data.rows.getD p dummyRow).expected_price = none ∧
          (bt.market_data.rows.getD p dummyRow).executed_price = none ∧
          (bt.market_data.rows.getD p dummyRow).executed_quantity = 0) := by
  have hlen0 : (Backtester.init df slip).market_data.rows =
      df.rows.map (fun r =>
        { r with executed_quantity := 0, executed_price := none, expected_price := none }) :=
    rfl
  have hql : qs.length = (Backtester.init df slip).market_data.rows.length := by
    rw [hlen0, List.length_map, h]
  have hrun := runRows_aligned slip qs (Backtester.init df slip).market_data.rows hql
  have hslip : (Backtester.init df slip).slippage_factor = slip := rfl
  have h2 : ((Backtester.init df slip).run (alignedOrders qs)).2 = none := by
    simp only [Backtester.run, hslip, hrun]
  have hrows : ((Backtester.init df slip).run (alignedOrders qs)).1.market_data.rows =
      List.zipWith (fun r q => if 0 < q then executeRow r q slip else r)
        (Backtester.init df slip).market_data.rows qs := by
    simp only [Backtester.run, hslip, hrun]
  refine ⟨((Backtester.init df slip).run (alignedOrders qs)).1, ?_, ?_, ?_⟩
  · rw [← h2]
  · rw [hrows, List.length_zipWith, hlen0, List.length_map, h]
    exact min_self _
  · intro p hp
    have hp0 : p < (Backtester.init df slip).market_data.rows.length := by
      rw [hlen0, List.length_map]; exact hp
    have hpq : p < qs.length := by rw [h]; exact hp
    have hzip := zipWith_getD (fun r q => if 0 < q then executeRow r q slip else r)
      (Backtester.init df slip).market_data.rows qs p hp0 hpq
    have hmap := map_getD
      (fun r => { r with executed_quantity := 0, executed_price := none, expected_price := none })
      df.rows p hp
    rw [hlen0] at hzip
    constructor
    · intro hpos
      simp only [hrows, hlen0, hzip, hmap, if_pos hpos]
      simp [executeRow]
    · intro hneg
      simp only [hrows, hlen0, hzip, hmap, if_neg hneg]
      simp

/-- Witness for C1 at a concrete input: two periods, orders `[3, 0]`,
volume caps the first fill. -/
theorem run_executes_aligned_schedule_witness :
    ([(3:ℚ), 0].length = (DataFrame.mk true
        [⟨10, 2, 3, 7, some 99, some 99⟩, ⟨20, 5, 0, 7, some 99, some 99⟩]).rows.length) ∧
    ∃ bt : Backtester,
      (Backtester.init (DataFrame.mk true
          [⟨10, 2, 3, 7, some 99, some 99⟩, ⟨20, 5, 0, 7, some 99, some 99⟩]) (1/10)).run
        (alignedOrders [(3:ℚ), 0]) = (bt, none) ∧
      (bt.market_data.rows.getD 0 dummyRow).executed_quantity = 2 ∧
      (bt.market_data.rows.getD 0 dummyRow).executed_price = some 11 ∧
      (bt.market_data.rows.getD 1 dummyRow).executed_quantity = 0 ∧
      (bt.market_data.rows.getD 1 dummyRow).executed_price = none := by
  have h := run_executes_aligned_schedule (DataFrame.mk true
    [⟨10, 2, 3, 7, some 99, some 99⟩, ⟨20, 5, 0, 7, some 99, some 99⟩]) (1/10)
    [(3:ℚ), 0] (by norm_num)
  obtain ⟨bt, hrun, hlen, hpt⟩ := h
  refine ⟨by norm_num, bt, hrun, ?_, ?_, ?_, ?_⟩
  · have := ((hpt 0 (by norm_num)).1 (by norm_num)).2.2
    rw [this]
    norm_num
  · have := ((hpt 0 (by norm_num)).1 (by norm_num)).2.1
    rw [this]
    norm_num
  · exact ((hpt 1 (by norm_num)).2 (by norm_num)).2.2
  · exact ((hpt 1 (by norm_num)).2 (by norm_num)).2.1

/-- C7 (amended): `Backtester.run` raises a `KeyError` exactly when
some schedule entry with positive order quantity carries a label
outside the index of the market frame; a schedule that merely covers fewer
periods than the market frame, or whose extra labels all have
non-positive quantity, is processed without any fault. -/
theorem run_alignment_fault_iff (df : DataFrame) (slip : ℚ) (orders : List (Int × ℚ)) :
    ((Backtester.init df slip).run orders).2 = none ↔
      ∀ e ∈ orders, 0 < e.2 → 0 ≤ e.1 ∧ e.1.toNat < df.rows.length := by
  have hlen0 : (Backtester.init df slip).market_data.rows.length = df.rows.length := by
    show (df.rows.map _).length = df.rows.length
    rw [List.length_map]
  simp only [Backtester.run]
  rw [runRows_none_iff, hlen0]

/-- Witness for C7 (amended), fault side: a positive order at label `5`
against a one-row frame does raise the `KeyError`. -/
theorem run_alignment_fault_iff_witness :
    ((Backtester.init (DataFrame.mk true [⟨10, 5, 1, 0, none, none⟩]) (1/10)).run
      [((5 : Int), (2 : ℚ))]).2 ≠ none := by
  have h := run_alignment_fault_iff (DataFrame.mk true [⟨10, 5, 1, 0, none, none⟩]) (1/10)
    [((5 : Int), (2 : ℚ))]
  intro hnone
  have hbad := (h.mp hnone) ((5 : Int), (2 : ℚ)) (List.mem_singleton.mpr rfl) (by norm_num)
  have h2 := hbad.2
  norm_num at h2

/-- Counterexample to C7 as stated: a schedule shorter than the market
series (clearly misaligned in length) is accepted by `run` with no
fault signalled. -/
theorem run_short_schedule_no_fault_cex :
    (alignedOrders [(1:ℚ)]).length ≠
      (DataFrame.mk true [⟨10, 5, 1, 0, none, none⟩, ⟨20, 5, 1, 0, none, none⟩]).rows.length ∧
    ((Backtester.init (DataFrame.mk true
        [⟨10, 5, 1, 0, none, none⟩, ⟨20, 5, 1, 0, none, none⟩]) (1/100)).run
      (alignedOrders [(1:ℚ)])).2 = none := by
  constructor
  · norm_num [alignedOrders, withLabels]
  · simp only [Backtester.run]
    rw [runRows_none_iff]
    intro e he hq
    simp only [alignedOrders, withLabels] at he
    have he2 : e = ((0:Int), (1:ℚ)) := List.mem_singleton.mp he
    rw [he2]
    refine ⟨by norm_num, ?_⟩
    show (0:Int).toNat < (Backtester.init _ _).market_data.rows.length
    norm_num [Backtester.init]

/-- C4: when no period has both a positive executed quantity and a
defined executed price, `calculate_metrics` returns undefined execution
cost and slippage and a fill rate of `0`, without faulting. -/
theorem calculate_metrics_empty_fill (bt : Backtester) (b : String)
    (h : filledRows bt.market_data.rows = []) :
    bt.calculate_metrics b = .ok ⟨.undefined, .undefined, 0⟩ := by
  simp [Backtester.calculate_metrics, h]

def dfEmptyFill : DataFrame :=
  ⟨true, [⟨10, 5, 0, 0, none, none⟩, ⟨20, 5, 0, 0, none, none⟩]⟩

def btEmptyFill : Backtester :=
  ((Backtester.init dfEmptyFill (1/1000)).run (alignedOrders [0, 0])).1

/-- Witness for C4: an all-zero order schedule leaves the filled set
empty, and the metrics are the defined empty values. -/
theorem calculate_metrics_empty_fill_witness :
    filledRows btEmptyFill.market_data.rows = [] ∧
    btEmptyFill.calculate_metrics "VWAP" = .ok ⟨.undefined, .undefined, 0⟩ := by
  have hql : ([(0:ℚ), 0]).length =
      (Backtester.init dfEmptyFill (1/1000)).market_data.rows.length := by
    rw [init_rows]
    norm_num [dfEmptyFill]
  have hrun := runRows_aligned (1/1000) [0, 0]
    (Backtester.init dfEmptyFill (1/1000)).market_data.rows hql
  have hrows : btEmptyFill.market_data.rows =
      [⟨10, 5, 0, 0, none, none⟩, ⟨20, 5, 0, 0, none, none⟩] := by
    rw [btEmptyFill, run_rows_eq, init_slippage, hrun]
    rw [init_rows]
    norm_num [dfEmptyFill, List.zipWith]
  have h : filledRows btEmptyFill.market_data.rows = [] := by
    rw [hrows]
    simp [filledRows]
  exact ⟨h, calculate_metrics_empty_fill btEmptyFill "VWAP" h⟩

/-- C10: the fill-rate denominator is read from the `order_quantity`
column of the frame supplied to the constructor, not from the schedule
passed to `run`: when the constructor frame lacks that column and at
least one period filled, `calculate_metrics` raises the missing-key
fault, whatever schedule `run` received. -/
theorem calculate_metrics_missing_order_column (df : DataFrame) (slip : ℚ)
    (orders : List (Int × ℚ)) (b : String)
    (h1 : df.hasOrderCol = false)
    (h2 : filledRows (((Backtester.init df slip).run orders).1.market_data.rows) ≠ []) :
    ((Backtester.init df slip).run orders).1.calculate_metrics b =
      .error "KeyError: order_quantity" := by
  have hcol : ((Backtester.init df slip).run orders).1.market_data.hasOrderCol = false := by
    rw [run_hasOrderCol, init_hasOrderCol, h1]
  have hne : (filledRows (((Backtester.init df slip).run orders).1.market_data.rows)).isEmpty
      = false := by
    cases hfr : filledRows (((Backtester.init df slip).run orders).1.market_data.rows) with
    | nil => exact absurd hfr h2
    | cons a t => rfl
  simp [Backtester.calculate_metrics, hne, hcol]

def dfNoOrderCol : DataFrame :=
  ⟨false, [⟨10, 5, 3, 0, none, none⟩]⟩

def btNoOrderCol : Backtester :=
  ((Backtester.init dfNoOrderCol (1/10)).run (alignedOrders [2])).1

/-- Witness for C10: a one-period frame without the `order_quantity`
column, with a filled period, makes `calculate_metrics` fault. -/
theorem calculate_metrics_missing_order_column_witness :
    dfNoOrderCol.hasOrderCol = false ∧
    filledRows btNoOrderCol.market_data.rows ≠ [] ∧
    btNoOrderCol.calculate_metrics "VWAP" = .error "KeyError: order_quantity" := by
  have hql : ([(2:ℚ)]).length =
      (Backtester.init dfNoOrderCol (1/10)).market_data.rows.length := by
    rw [init_rows]
    norm_num [dfNoOrderCol]
  have hrun := runRows_aligned (1/10) [2]
    (Backtester.init dfNoOrderCol (1/10)).market_data.rows hql
  have hrows : btNoOrderCol.market_data.rows =
      [⟨10, 5, 3, 2, some 11, some 10⟩] := by
    rw [btNoOrderCol, run_rows_eq, init_slippage, hrun]
    rw [init_rows]
    norm_num [dfNoOrderCol, List.zipWith, executeRow]
  have h2 : filledRows btNoOrderCol.market_data.rows ≠ [] := by
    rw [hrows]
    simp [filledRows]
  exact ⟨rfl, h2,
    calculate_metrics_missing_order_column dfNoOrderCol (1/10) (alignedOrders [2]) "VWAP" rfl h2⟩

/-- Evaluation of `calculate_metrics` on the non-empty-fill,
column-present path, with the guarded fill rate as the code computes it. -/
lemma metrics_eval (bt : Backtester) (b : String)
    (hne : (filledRows bt.market_data.rows).isEmpty = false)
    (hcol : bt.market_data.hasOrderCol = true) :
    bt.calculate_metrics b = .ok
      ⟨(MVal.val (specAvgExecPrice bt.market_data.rows)).sub
          (benchmarkPrice bt.market_data.rows b),
        .val (specAvgExecPrice bt.market_data.rows - specAvgExpectedPrice bt.market_data.rows),
        if 0 < sumBy bt.market_data.rows (fun r => r.order_quantity) then
          specTotalExecuted bt.market_data.rows /
            sumBy bt.market_data.rows (fun r => r.order_quantity)
        else 0⟩ := by
  simp [Backtester.calculate_metrics, hne, hcol, specAvgExecPrice, specAvgExpectedPrice,
    specTotalExecuted]

/-- A non-empty list is not `isEmpty`. -/
lemma isEmpty_false_of_ne_nil {l : List BTRow} (h : l ≠ []) : l.isEmpty = false := by
  cases hfr : l with
  | nil => exact absurd hfr h
  | cons a t => rfl

/-- The guarded fill-rate expression of the code agrees with the spec
formula (`0` at a zero order total) whenever the order total is
non-negative. -/
lemma fillRate_code_eq_spec (rows : List BTRow)
    (h : 0 ≤ sumBy rows (fun r => r.order_quantity)) :
    (if 0 < sumBy rows (fun r => r.order_quantity) then
        specTotalExecuted rows / sumBy rows (fun r => r.order_quantity)
      else 0) = specFillRate rows := by
  rcases eq_or_lt_of_le h with h0 | h0
  · rw [if_neg (by rw [← h0]; exact lt_irrefl 0), specFillRate, if_pos h0.symm]
  · rw [if_pos h0, specFillRate, if_neg (ne_of_gt h0)]

/-- C3: with a non-empty filled set (and the `order_quantity` column
present, with a non-negative total as the data model requires),
`calculate_metrics` returns the spec formulas: executed-weighted
average prices over the filled set, `execution_cost = avg_exec_price -
benchmark_price`, `slippage = avg_exec_price - avg_expected_price`,
and `fill_rate = total executed / total ordered`. -/
theorem calculate_metrics_formulas (bt : Backtester) (b : String)
    (h1 : filledRows bt.market_data.rows ≠ [])
    (h2 : bt.market_data.hasOrderCol = true)
    (h3 : 0 ≤ sumBy bt.market_data.rows (fun r => r.order_quantity)) :
    bt.calculate_metrics b = .ok
      ⟨(MVal.val (specAvgExecPrice bt.market_data.rows)).sub
          (benchmarkPrice bt.market_data.rows b),
        .val (specAvgExecPrice bt.market_data.rows - specAvgExpectedPrice bt.market_data.rows),
        specFillRate bt.market_data.rows⟩ := by
  rw [metrics_eval bt b (isEmpty_false_of_ne_nil h1) h2,
    fillRate_code_eq_spec bt.market_data.rows h3]

def mktScenario : List MarketRow := [⟨10, 5⟩, ⟨20, 5⟩, ⟨30, 5⟩]

def schedScenario : List SchedRow :=
  TWAPStrategy.generate_orders ⟨9, 0, 2⟩ mktScenario

def btScenario : Backtester :=
  ((Backtester.init (schedToDF schedScenario) (1/10)).run (ordersOf schedScenario)).1

/-- Witness for C3, the §8 concrete scenario: prices `[10, 20, 30]`,
volumes `[5, 5, 5]`, TWAP of `9` over indices `0..2`, slippage factor
`1/10`, VWAP benchmark: execution cost `2`, slippage `2`, fill rate
`1`. -/
theorem calculate_metrics_formulas_witness :
    (filledRows btScenario.market_data.rows ≠ [] ∧
      btScenario.market_data.hasOrderCol = true ∧
      0 ≤ sumBy btScenario.market_data.rows (fun r => r.order_quantity)) ∧
    btScenario.calculate_metrics "VWAP" = .ok ⟨.val 2, .val 2, 1⟩ := by
  have hsched : schedScenario =
      [⟨0, some 10, some 5, 3⟩, ⟨1, some 20, some 5, 3⟩, ⟨2, some 30, some 5, 3⟩] := by
    have hrange : intRange 0 2 = [0, 1, 2] := by decide
    rw [schedScenario, TWAPStrategy.generate_orders]
    norm_num [hrange, mktScenario, dfZeroOrders, setOrderAt, List.foldl]
  have hql : (ordersOf schedScenario).map Prod.snd = [3, 3, 3] := by
    rw [hsched]
    norm_num [ordersOf]
  have hord : ordersOf schedScenario = alignedOrders [3, 3, 3] := by
    rw [hsched]
    norm_num [ordersOf, alignedOrders, withLabels]
  have hql2 : ([(3:ℚ), 3, 3]).length =
      (Backtester.init (schedToDF schedScenario) (1/10)).market_data.rows.length := by
    rw [init_rows, hsched]
    norm_num [schedToDF]
  have hrun := runRows_aligned (1/10) [3, 3, 3]
    (Backtester.init (schedToDF schedScenario) (1/10)).market_data.rows hql2
  have hrows : btScenario.market_data.rows =
      [⟨10, 5, 3, 3, some 11, some 10⟩, ⟨20, 5, 3, 3, some 22, some 20⟩,
        ⟨30, 5, 3, 3, some 33, some 30⟩] := by
    rw [btScenario, run_rows_eq, init_slippage, hord, hrun, init_rows, hsched]
    norm_num [schedToDF, List.zipWith, executeRow]
  have hcol : btScenario.market_data.hasOrderCol = true := by
    rw [btScenario, run_hasOrderCol, init_hasOrderCol, schedToDF]
  have hfilled : filledRows btScenario.market_data.rows =
      [⟨10, 5, 3, 3, some 11, some 10⟩, ⟨20, 5, 3, 3, some 22, some 20⟩,
        ⟨30, 5, 3, 3, some 33, some 30⟩] := by
    rw [hrows]
    norm_num [filledRows]
  have h1 : filledRows btScenario.market_data.rows ≠ [] := by
    rw [hfilled]
    simp
  have h3 : 0 ≤ sumBy btScenario.market_data.rows (fun r => r.order_quantity) := by
    rw [hrows]
    norm_num [sumBy]
  refine ⟨⟨h1, hcol, h3⟩, ?_⟩
  rw [calculate_metrics_formulas btScenario "VWAP" h1 hcol h3]
  have havg : specAvgExecPrice btScenario.market_data.rows = 22 := by
    rw [specAvgExecPrice, specTotalExecuted, hfilled]
    norm_num [sumBy]
  have havge : specAvgExpectedPrice btScenario.market_data.rows = 20 := by
    rw [specAvgExpectedPrice, specTotalExecuted, hfilled]
    norm_num [sumBy]
  have hbench : benchmarkPrice btScenario.market_data.rows "VWAP" = .val 20 := by
    rw [benchmarkPrice, if_pos (show pyUpper "VWAP" = "VWAP" from rfl), hrows]
    norm_num [npDiv, sumBy]
  have hfill : specFillRate btScenario.market_data.rows = 1 := by
    rw [specFillRate, specTotalExecuted, hfilled, hrows]
    norm_num [sumBy]
  rw [havg, havge, hbench, hfill]
  norm_num [MVal.sub]

/-- C5 (amended): the benchmark comparison is case-insensitive —
`benchmark_type.upper() == "VWAP"` — so every string whose upper-casing
is `"VWAP"` selects the volume-weighted benchmark (equal to the spec
`Σ price·volume / Σ volume` whenever total volume is nonzero), and
every other string selects the arithmetic mean of the price column. -/
theorem benchmark_selection (rows : List BTRow) (btype : String) :
    (pyUpper btype = "VWAP" → sumBy rows (fun r => r.volume) ≠ 0 →
      benchmarkPrice rows btype = .val (specVWAP rows)) ∧
    (pyUpper btype ≠ "VWAP" → benchmarkPrice rows btype = .val (specMeanPrice rows)) := by
  constructor
  · intro hu hv
    rw [benchmarkPrice, if_pos hu, npDiv, if_neg hv, specVWAP]
  · intro hu
    rw [benchmarkPrice, if_neg hu, specMeanPrice]

def rowsBench : List BTRow :=
  [⟨10, 1, 1, 1, some 11, some 10⟩, ⟨20, 3, 1, 1, some 22, some 20⟩]

/-- Witness for C5 (amended): `"vwap"` upper-cases to `"VWAP"` and
selects the VWAP benchmark `35/2`; `"avg_price"` selects the mean
`15`. -/
theorem benchmark_selection_witness :
    pyUpper "vwap" = "VWAP" ∧ sumBy rowsBench (fun r => r.volume) ≠ 0 ∧
    benchmarkPrice rowsBench "vwap" = .val (35/2) ∧
    pyUpper "avg_price" ≠ "VWAP" ∧
    benchmarkPrice rowsBench "avg_price" = .val 15 := by
  have h1 := (benchmark_selection rowsBench "vwap").1 rfl (by norm_num [rowsBench, sumBy])
  have h2 := (benchmark_selection rowsBench "avg_price").2 (by decide)
  refine ⟨rfl, by norm_num [rowsBench, sumBy], ?_, by decide, ?_⟩
  · rw [h1, specVWAP]
    norm_num [rowsBench, sumBy, MVal.val.injEq]
  · rw [h2, specMeanPrice]
    norm_num [rowsBench, sumBy, MVal.val.injEq]

def btBench : Backtester := ⟨⟨true, rowsBench⟩, 1/10⟩

/-- Counterexample to C5 as stated: the string `"vwap"` is not
`"VWAP"`, yet `calculate_metrics` does not fall back to the
arithmetic-mean benchmark for it (the mean-based result is the one the
code produces for `"xyz"`): the claim predicts the same metrics for
both, the code disagrees. -/
theorem benchmark_case_insensitive_cex :
    ("vwap" : String) ≠ "VWAP" ∧
    btBench.calculate_metrics "xyz" = .ok ⟨.val (3/2), .val (3/2), 1⟩ ∧
    btBench.calculate_metrics "vwap" = .ok ⟨.val (-1), .val (3/2), 1⟩ ∧
    btBench.calculate_metrics "vwap" ≠ .ok ⟨.val (3/2), .val (3/2), 1⟩ := by
  have hfilled : filledRows btBench.market_data.rows = rowsBench := by
    norm_num [btBench, rowsBench, filledRows]
  have hne : (filledRows btBench.market_data.rows).isEmpty = false := by
    rw [hfilled]
    rfl
  have hcol : btBench.market_data.hasOrderCol = true := rfl
  have havg : specAvgExecPrice btBench.market_data.rows = 33/2 := by
    rw [specAvgExecPrice, specTotalExecuted]
    show (sumBy (filledRows rowsBench) _) / (sumBy (filledRows rowsBench) _) = 33/2
    norm_num [rowsBench, filledRows, sumBy]
  have havge : specAvgExpectedPrice btBench.market_data.rows = 15 := by
    rw [specAvgExpectedPrice, specTotalExecuted]
    show (sumBy (filledRows rowsBench) _) / (sumBy (filledRows rowsBench) _) = 15
    norm_num [rowsBench, filledRows, sumBy]
  have hbx : benchmarkPrice btBench.market_data.rows "xyz" = .val 15 := by
    rw [benchmarkPrice, if_neg (by decide)]
    show MVal.val ((sumBy rowsBench _) / ((rowsBench.length : ℚ))) = .val 15
    norm_num [rowsBench, sumBy, MVal.val.injEq]
  have hbv : benchmarkPrice btBench.market_data.rows "vwap" = .val (35/2) := by
    rw [benchmarkPrice, if_pos (show pyUpper "vwap" = "VWAP" from rfl), npDiv,
      if_neg (by norm_num [btBench, rowsBench, sumBy])]
    show MVal.val _ = _
    norm_num [btBench, rowsBench, sumBy, MVal.val.injEq]
  have hfill : (if 0 < sumBy btBench.market_data.rows (fun r => r.order_quantity) then
      specTotalExecuted btBench.market_data.rows /
        sumBy btBench.market_data.rows (fun r => r.order_quantity)
    else 0) = 1 := by
    rw [if_pos (by norm_num [btBench, rowsBench, sumBy]), specTotalExecuted, hfilled]
    norm_num [btBench, rowsBench, sumBy]
  refine ⟨by decide, ?_, ?_, ?_⟩
  · rw [metrics_eval btBench "xyz" hne hcol, havg, havge, hbx, hfill]
    norm_num [MVal.sub]
  · rw [metrics_eval btBench "vwap" hne hcol, havg, havge, hbv, hfill]
    norm_num [MVal.sub]
  · rw [metrics_eval btBench "vwap" hne hcol, havg, havge, hbv, hfill]
    simp [MVal.sub]
    norm_num

/-- C6 (amended): with the VWAP benchmark, a zero total volume (here
with zero total price·volume as well, the 0/0 case of numpy) does not
raise any fault: `calculate_metrics` silently returns an `ok` result
whose execution cost is the float `nan` produced by numpy division. -/
theorem vwap_zero_volume_silent_nan (bt : Backtester)
    (h1 : filledRows bt.market_data.rows ≠ [])
    (h2 : bt.market_data.hasOrderCol = true)
    (h3 : sumBy bt.market_data.rows (fun r => r.volume) = 0)
    (h4 : sumBy bt.market_data.rows (fun r => r.price * r.volume) = 0) :
    ∃ sl fr : ℚ, bt.calculate_metrics "VWAP" = .ok ⟨MVal.nan, .val sl, fr⟩ := by
  have hbench : benchmarkPrice bt.market_data.rows "VWAP" = .nan := by
    rw [benchmarkPrice, if_pos (show pyUpper "VWAP" = "VWAP" from rfl), h3, h4, npDiv]
    simp
  refine ⟨specAvgExecPrice bt.market_data.rows - specAvgExpectedPrice bt.market_data.rows,
    if 0 < sumBy bt.market_data.rows (fun r => r.order_quantity) then
      specTotalExecuted bt.market_data.rows /
        sumBy bt.market_data.rows (fun r => r.order_quantity)
    else 0, ?_⟩
  rw [metrics_eval bt "VWAP" (isEmpty_false_of_ne_nil h1) h2, hbench]
  rfl

def btZeroVol : Backtester :=
  ⟨⟨true, [⟨10, 2, 1, 1, some 11, some 10⟩, ⟨10, -2, 0, 0, none, none⟩]⟩, 1/10⟩

/-- Witness for C6 (amended) at a concrete state whose total volume is
zero while one period is filled. -/
theorem vwap_zero_volume_silent_nan_witness :
    (filledRows btZeroVol.market_data.rows ≠ [] ∧
      btZeroVol.market_data.hasOrderCol = true ∧
      sumBy btZeroVol.market_data.rows (fun r => r.volume) = 0 ∧
      sumBy btZeroVol.market_data.rows (fun r => r.price * r.volume) = 0) ∧
    ∃ sl fr : ℚ, btZeroVol.calculate_metrics "VWAP" = .ok ⟨MVal.nan, .val sl, fr⟩ := by
  have h1 : filledRows btZeroVol.market_data.rows ≠ [] := by
    norm_num [btZeroVol, filledRows]
  have h3 : sumBy btZeroVol.market_data.rows (fun r => r.volume) = 0 := by
    norm_num [btZeroVol, sumBy]
  have h4 : sumBy btZeroVol.market_data.rows (fun r => r.price * r.volume) = 0 := by
    norm_num [btZeroVol, sumBy]
  exact ⟨⟨h1, rfl, h3, h4⟩, vwap_zero_volume_silent_nan btZeroVol h1 rfl h3 h4⟩

def dfZeroVolRun : DataFrame :=
  ⟨true, [⟨10, 2, 1, 0, none, none⟩, ⟨10, -2, 0, 0, none, none⟩]⟩

def btZeroVolRun : Backtester :=
  ((Backtester.init dfZeroVolRun (1/10)).run (alignedOrders [1, 0])).1

/-- Counterexample to C6 as stated: a backtest whose market series has
total volume `0` and a non-empty filled set, where `calculate_metrics`
with the VWAP benchmark returns an ordinary `ok` result (execution
cost `nan`) instead of signalling any fault. -/
theorem vwap_zero_volume_no_fault_cex :
    sumBy btZeroVolRun.market_data.rows (fun r => r.volume) = 0 ∧
    filledRows btZeroVolRun.market_data.rows ≠ [] ∧
    btZeroVolRun.calculate_metrics "VWAP" = .ok ⟨MVal.nan, .val 1, 1⟩ := by
  have hql : ([(1:ℚ), 0]).length =
      (Backtester.init dfZeroVolRun (1/10)).market_data.rows.length := by
    rw [init_rows]
    norm_num [dfZeroVolRun]
  have hrun := runRows_aligned (1/10) [1, 0]
    (Backtester.init dfZeroVolRun (1/10)).market_data.rows hql
  have hrows : btZeroVolRun.market_data.rows =
      [⟨10, 2, 1, 1, some 11, some 10⟩, ⟨10, -2, 0, 0, none, none⟩] := by
    rw [btZeroVolRun, run_rows_eq, init_slippage, hrun, init_rows]
    norm_num [dfZeroVolRun, List.zipWith, executeRow]
  have hfilled : filledRows btZeroVolRun.market_data.rows =
      [⟨10, 2, 1, 1, some 11, some 10⟩] := by
    rw [hrows]
    norm_num [filledRows]
  have h1 : filledRows btZeroVolRun.market_data.rows ≠ [] := by
    rw [hfilled]
    simp
  have h3 : sumBy btZeroVolRun.market_data.rows (fun r => r.volume) = 0 := by
    rw [hrows]
    norm_num [sumBy]
  have hcol : btZeroVolRun.market_data.hasOrderCol = true := by
    rw [btZeroVolRun, run_hasOrderCol, init_hasOrderCol, dfZeroVolRun]
  have hbench : benchmarkPrice btZeroVolRun.market_data.rows "VWAP" = .nan := by
    rw [benchmarkPrice, if_pos (show pyUpper "VWAP" = "VWAP" from rfl), npDiv]
    rw [if_pos h3, if_pos (by rw [hrows]; norm_num [sumBy])]
  have havg : specAvgExecPrice btZeroVolRun.market_data.rows = 11 := by
    rw [specAvgExecPrice, specTotalExecuted, hfilled]
    norm_num [sumBy]
  have havge : specAvgExpectedPrice btZeroVolRun.market_data.rows = 10 := by
    rw [specAvgExpectedPrice, specTotalExecuted, hfilled]
    norm_num [sumBy]
  have hfill : (if 0 < sumBy btZeroVolRun.market_data.rows (fun r => r.order_quantity) then
      specTotalExecuted btZeroVolRun.market_data.rows /
        sumBy btZeroVolRun.market_data.rows (fun r => r.order_quantity)
    else 0) = 1 := by
    rw [if_pos (by rw [hrows]; norm_num [sumBy]), specTotalExecuted, hfilled, hrows]
    norm_num [sumBy]
  refine ⟨h3, h1, ?_⟩
  rw [metrics_eval btZeroVolRun "VWAP" (isEmpty_false_of_ne_nil h1) hcol,
    havg, havge, hbench, hfill]
  norm_num [MVal.sub]

/-! ### Helper lemmas about `generate_orders` -/

/-- Placeholder schedule row for `List.getD` statements. -/
def dummySched : SchedRow := ⟨0, none, none, 0⟩

lemma list_getD_map {α β : Type} (f : α → β) (da : α) (db : β) :
    ∀ (as : List α) (p : Nat), p < as.length → (as.map f).getD p db = f (as.getD p da) := by
  intro as
  induction as with
  | nil => intro p h; simp at h
  | cons a as ih =>
    intro p h
    cases p with
    | zero => simp
    | succ p =>
      simp only [List.map_cons, List.getD_cons_succ]
      exact ih p (by simpa using h)

lemma dfZeroOrders_length : ∀ (ms : List MarketRow) (k : Nat),
    (dfZeroOrders k ms).length = ms.length := by
  intro ms
  induction ms with
  | nil => intro k; rfl
  | cons m ms ih => intro k; simp [dfZeroOrders, ih]

lemma dfZeroOrders_getD : ∀ (ms : List MarketRow) (k p : Nat), p < ms.length →
    (dfZeroOrders k ms).getD p dummySched =
      ⟨((k + p : Nat) : Int), some ((ms.getD p ⟨0, 0⟩).price),
        some ((ms.getD p ⟨0, 0⟩).volume), 0⟩ := by
  intro ms
  induction ms with
  | nil => intro k p h; simp at h
  | cons m ms ih =>
    intro k p h
    cases p with
    | zero => simp [dfZeroOrders]
    | succ p =>
      simp only [dfZeroOrders, List.getD_cons_succ]
      rw [ih (k + 1) p (by simpa using h)]
      congr 1
      omega

lemma dfZeroOrders_mem : ∀ (ms : List MarketRow) (k : Nat), ∀ r ∈ dfZeroOrders k ms,
    ((k : Int) ≤ r.label ∧ r.label < (k : Int) + ms.length) ∧ r.order_quantity = 0 := by
  intro ms
  induction ms with
  | nil => intro k r hr; simp [dfZeroOrders] at hr
  | cons m ms ih =>
    intro k r hr
    rcases List.mem_cons.mp hr with hr0 | hr1
    · subst hr0
      refine ⟨⟨le_refl _, ?_⟩, rfl⟩
      simp only [List.length_cons]
      push_cast
      omega
    · obtain ⟨⟨hb1, hb2⟩, hq⟩ := ih (k + 1) r hr1
      refine ⟨⟨by push_cast at hb1 ⊢; omega, ?_⟩, hq⟩
      simp only [List.length_cons]
      push_cast at hb2 ⊢
      omega

lemma dfZeroOrders_any_label : ∀ (ms : List MarketRow) (k : Nat) (l : Int),
    (k : Int) ≤ l → l < (k : Int) + ms.length →
    (dfZeroOrders k ms).any (fun r => r.label = l) = true := by
  intro ms
  induction ms with
  | nil => intro k l hk hl; simp at hl; omega
  | cons m ms ih =>
    intro k l hk hl
    simp only [dfZeroOrders, List.any_cons, Bool.or_eq_true]
    by_cases hlk : l = (k : Int)
    · left
      simp [hlk]
    · right
      apply ih (k + 1) l (by push_cast; omega)
      simp only [List.length_cons] at hl
      push_cast at hl ⊢
      omega

lemma dfZeroOrders_any_label_false (ms : List MarketRow) (k : Nat) (l : Int)
    (h : (k : Int) + ms.length ≤ l) :
    (dfZeroOrders k ms).any (fun r => r.label = l) = false := by
  rw [List.any_eq_false]
  intro r hr
  obtain ⟨⟨hb1, hb2⟩, _⟩ := dfZeroOrders_mem ms k r hr
  simp only [decide_eq_true_eq]
  omega

lemma setOrderAt_of_present (rows : List SchedRow) (l : Int) (q : ℚ)
    (h : rows.any (fun r => r.label = l) = true) :
    setOrderAt rows l q =
      rows.map (fun r => if r.label = l then { r with order_quantity := q } else r) := by
  rw [setOrderAt, if_pos h]

lemma setOrderAt_of_absent (rows : List SchedRow) (l : Int) (q : ℚ)
    (h : rows.any (fun r => r.label = l) = false) :
    setOrderAt rows l q = rows ++ [⟨l, none, none, q⟩] := by
  rw [setOrderAt, if_neg (by simp [h])]

lemma setOrderAt_label_preserve (l : Int) (q : ℚ) (r : SchedRow) :
    (if r.label = l then { r with order_quantity := q } else r).label = r.label := by
  by_cases h : r.label = l <;> simp [h]

/-- Folding `.at` assignments of the same quantity over labels that are
all present updates each matching row once. -/
lemma foldl_setOrderAt_present (q : ℚ) :
    ∀ (L : List Int) (rows : List SchedRow),
      (∀ l ∈ L, rows.any (fun r => r.label = l) = true) →
      L.foldl (fun rs l => setOrderAt rs l q) rows =
        rows.map (fun r => if r.label ∈ L then { r with order_quantity := q } else r) := by
  intro L
  induction L with
  | nil =>
    intro rows h
    simp
  | cons l L ih =>
    intro rows h
    rw [List.foldl_cons, setOrderAt_of_present rows l q (h l (List.mem_cons_self _ _))]
    rw [ih _ ?_]
    · rw [List.map_map]
      apply List.map_congr_left
      intro r _
      by_cases h1 : r.label = l
      · by_cases h2 : r.label ∈ L <;>
          simp [Function.comp, h1, h2, List.mem_cons]
      · by_cases h2 : r.label ∈ L <;>
          simp [Function.comp, h1, h2, List.mem_cons]
    · intro m hm
      rw [List.any_map]
      have hfun : ((fun r : SchedRow => decide (r.label = m)) ∘
          (fun r => if r.label = l then { r with order_quantity := q } else r)) =
          (fun r : SchedRow => decide (r.label = m)) := by
        funext r
        simp [Function.comp, setOrderAt_label_preserve]
      rw [hfun]
      exact h m (List.mem_cons_of_mem _ hm)

/-- Folding `.at` assignments over strictly increasing labels that are
all absent appends one enlarged row per label, in order. -/
lemma foldl_setOrderAt_absent (q : ℚ) :
    ∀ (L : List Int) (rows : List SchedRow),
      L.Pairwise (· < ·) →
      (∀ l ∈ L, rows.any (fun r => r.label = l) = false) →
      L.foldl (fun rs l => setOrderAt rs l q) rows =
        rows ++ L.map (fun l => ⟨l, none, none, q⟩) := by
  intro L
  induction L with
  | nil =>
    intro rows _ _
    simp
  | cons l L ih =>
    intro rows hp h
    obtain ⟨hlt, hp2⟩ := List.pairwise_cons.mp hp
    rw [List.foldl_cons, setOrderAt_of_absent rows l q (h l (List.mem_cons_self _ _))]
    rw [ih _ hp2 ?_]
    · simp [List.append_assoc]
    · intro m hm
      rw [List.any_append]
      have h1 : rows.any (fun r => r.label = m) = false :=
        h m (List.mem_cons_of_mem _ hm)
      have h2 : ([(⟨l, none, none, q⟩ : SchedRow)]).any (fun r => r.label = m) = false := by
        simp only [List.any_cons, List.any_nil, Bool.or_false, decide_eq_false_iff_not]
        exact ne_of_lt (hlt m hm)
      rw [h1, h2]
      rfl

lemma mem_intRange (s e l : Int) : l ∈ intRange s e ↔ s ≤ l ∧ l ≤ e := by
  simp only [intRange, List.mem_map, List.mem_range]
  constructor
  · rintro ⟨k, hk, rfl⟩
    omega
  · rintro ⟨hs, he⟩
    exact ⟨(l - s).toNat, by omega, by omega⟩

lemma intRange_pairwise (s e : Int) : (intRange s e).Pairwise (· < ·) := by
  rw [intRange, List.pairwise_map]
  apply List.Pairwise.imp ?_ (List.pairwise_lt_range _)
  intro a b hab
  omega

lemma intRange_nil (s e : Int) (h : e < s) : intRange s e = [] := by
  rw [intRange]
  have : (e + 1 - s).toNat = 0 := by omega
  rw [this]
  rfl

/-- C8 (amended): an order window lying entirely outside the series
index is not faulted; each out-of-range assignment silently enlarges
the schedule, appending a row with the out-of-range label, the
per-slice quantity, and undefined market cells. -/
theorem generate_orders_out_of_range_appends (total : ℚ) (s e : Int)
    (market : List MarketRow)
    (h1 : (market.length : Int) ≤ s) (h2 : s ≤ e) :
    TWAPStrategy.generate_orders ⟨total, s, e⟩ market =
      dfZeroOrders 0 market ++
        (intRange s e).map (fun l => ⟨l, none, none, total / ((e - s + 1 : Int) : ℚ)⟩) := by
  have hq : (0 : Int) < e - s + 1 := by omega
  simp only [TWAPStrategy.generate_orders, if_pos hq]
  apply foldl_setOrderAt_absent
  · exact intRange_pairwise s e
  · intro l hl
    rw [mem_intRange] at hl
    apply dfZeroOrders_any_label_false
    push_cast
    omega

/-- Witness for C8 (amended): a window `[1, 2]` entirely above a
one-row series appends two enlarged rows, no fault. -/
theorem generate_orders_out_of_range_appends_witness :
    ((([(⟨10, 5⟩ : MarketRow)]).length : Int) ≤ 1 ∧ (1 : Int) ≤ 2) ∧
    TWAPStrategy.generate_orders ⟨6, 1, 2⟩ [⟨10, 5⟩] =
      [⟨0, some 10, some 5, 0⟩, ⟨1, none, none, 3⟩, ⟨2, none, none, 3⟩] := by
  refine ⟨⟨by norm_num, by norm_num⟩, ?_⟩
  rw [generate_orders_out_of_range_appends 6 1 2 [⟨10, 5⟩] (by norm_num) (by norm_num)]
  have hr : intRange 1 2 = [1, 2] := by decide
  rw [hr]
  norm_num [dfZeroOrders]

/-- Counterexample to C8 as stated: `end_index = 1` on a length-1
series triggers no fault at the assignment; the out-of-range index is
silently accepted, the schedule growing a new row labelled `1`. -/
theorem generate_orders_enlarges_cex :
    TWAPStrategy.generate_orders ⟨6, 0, 1⟩ [⟨10, 5⟩] =
      [⟨0, some 10, some 5, 3⟩, ⟨1, none, none, 3⟩] ∧
    (([(⟨10, 5⟩ : MarketRow)]).length : Int) ≤ 1 := by
  refine ⟨?_, by norm_num⟩
  have hr : intRange 0 1 = [0, 1] := by decide
  simp only [TWAPStrategy.generate_orders, hr]
  norm_num [dfZeroOrders, List.foldl, setOrderAt]

lemma list_sum_map_sub (L : List SchedRow) (f g : SchedRow → ℚ) :
    (L.map (fun r => f r - g r)).sum = (L.map f).sum - (L.map g).sum := by
  induction L with
  | nil => simp
  | cons a L ih =>
    simp only [List.map_cons, List.sum_cons, ih]
    ring

lemma sum_ite_ge_all (q : ℚ) (b : Int) :
    ∀ (ms : List MarketRow) (k : Nat), b ≤ (k : Int) →
      ((dfZeroOrders k ms).map (fun r => if b ≤ r.label then q else 0)).sum
        = q * ms.length := by
  intro ms
  induction ms with
  | nil =>
    intro k h
    simp [dfZeroOrders]
  | cons m ms ih =>
    intro k h
    simp only [dfZeroOrders, List.map_cons, List.sum_cons]
    rw [if_pos h, ih (k + 1) (by push_cast at h ⊢; omega)]
    simp only [List.length_cons]
    push_cast
    ring

lemma sum_ite_ge (q : ℚ) (b : Int) :
    ∀ (ms : List MarketRow) (k : Nat), (k : Int) ≤ b → b ≤ (k : Int) + ms.length →
      ((dfZeroOrders k ms).map (fun r => if b ≤ r.label then q else 0)).sum
        = q * (((k : Int) + ms.length - b : Int) : ℚ) := by
  intro ms
  induction ms with
  | nil =>
    intro k h1 h2
    have hb : ((k : Int) + (([] : List MarketRow).length : Int) - b : Int) = 0 := by
      simp only [List.length_nil, Int.natCast_zero] at h2 ⊢
      omega
    rw [hb]
    simp [dfZeroOrders]
  | cons m ms ih =>
    intro k h1 h2
    simp only [dfZeroOrders, List.map_cons, List.sum_cons]
    by_cases hbk : b ≤ (k : Int)
    · have hkb : b = (k : Int) := le_antisymm hbk h1
      rw [if_pos hbk, sum_ite_ge_all q b ms (k + 1) (by push_cast; omega)]
      have hc : (((k : Int) + ((m :: ms).length : Int) - b : Int) : ℚ)
          = (ms.length : ℚ) + 1 := by
        have hint : ((k : Int) + ((m :: ms).length : Int) - b : Int)
            = (ms.length : Int) + 1 := by
          simp only [List.length_cons]
          push_cast
          omega
        rw [hint]
        push_cast
        ring
      rw [hc]
      ring
    · rw [if_neg hbk, ih (k + 1) (by push_cast at hbk ⊢; omega)
        (by simp only [List.length_cons] at h2; push_cast at h2 ⊢; omega)]
      have hint : (((k + 1 : Nat) : Int) + (ms.length : Int) - b : Int)
          = ((k : Int) + ((m :: ms).length : Int) - b : Int) := by
        simp only [List.length_cons]
        push_cast
        omega
      rw [hint]
      ring

lemma sum_ite_interval (rows : List SchedRow) (q : ℚ) (s e : Int) (hse : s ≤ e + 1) :
    (rows.map (fun r => if s ≤ r.label ∧ r.label ≤ e then q else 0)).sum =
      (rows.map (fun r => if s ≤ r.label then q else 0)).sum -
      (rows.map (fun r => if e + 1 ≤ r.label then q else 0)).sum := by
  rw [← list_sum_map_sub]
  congr 1
  apply List.map_congr_left
  intro r _
  by_cases h1 : s ≤ r.label
  · by_cases h2 : r.label ≤ e
    · rw [if_pos ⟨h1, h2⟩, if_pos h1, if_neg (by omega)]
      ring
    · rw [if_neg (by tauto), if_pos h1, if_pos (by omega)]
      ring
  · rw [if_neg (by tauto), if_neg h1, if_neg (by omega)]
    ring

/-- C2: for a valid window `0 ≤ start ≤ end < N`, every index in the
window receives exactly `total / (end - start + 1)`, every other index
receives `0`, and the schedule sums to the total; for an inverted
window every index receives `0`. -/
theorem generate_orders_twap (total : ℚ) (s e : Int) (market : List MarketRow)
    (_h0 : 0 ≤ total) (h1 : 0 ≤ s) (h2 : e < (market.length : Int)) :
    (TWAPStrategy.generate_orders ⟨total, s, e⟩ market).length = market.length ∧
    (s ≤ e →
      (∀ p : Nat, p < market.length →
        ((TWAPStrategy.generate_orders ⟨total, s, e⟩ market).getD p dummySched).order_quantity
          = if s ≤ (p : Int) ∧ (p : Int) ≤ e then total / ((e - s + 1 : Int) : ℚ) else 0) ∧
      ((TWAPStrategy.generate_orders ⟨total, s, e⟩ market).map
        (fun r => r.order_quantity)).sum = total) ∧
    (e < s →
      ∀ p : Nat, p < market.length →
        ((TWAPStrategy.generate_orders ⟨total, s, e⟩ market).getD p dummySched).order_quantity
          = 0) := by
  by_cases hse : s ≤ e
  · have hn : (0 : Int) < e - s + 1 := by omega
    have hpresent : ∀ l ∈ intRange s e,
        (dfZeroOrders 0 market).any (fun r => r.label = l) = true := by
      intro l hl
      rw [mem_intRange] at hl
      apply dfZeroOrders_any_label
      · push_cast
        omega
      · push_cast
        omega
    have hfold : TWAPStrategy.generate_orders ⟨total, s, e⟩ market =
        (dfZeroOrders 0 market).map
          (fun r => if r.label ∈ intRange s e
            then { r with order_quantity := total / ((e - s + 1 : Int) : ℚ) } else r) := by
      simp only [TWAPStrategy.generate_orders, if_pos hn]
      exact foldl_setOrderAt_present _ _ _ hpresent
    refine ⟨?_, fun _ => ⟨?_, ?_⟩, fun hco => absurd hco (not_lt.mpr hse)⟩
    · rw [hfold, List.length_map, dfZeroOrders_length]
    · intro p hp
      rw [hfold, list_getD_map _ dummySched dummySched _ p
        (by rw [dfZeroOrders_length]; exact hp)]
      rw [dfZeroOrders_getD market 0 p hp]
      simp only [mem_intRange, Nat.cast_add, Nat.cast_zero, zero_add]
      by_cases hc : s ≤ (p : Int) ∧ (p : Int) ≤ e
      · rw [if_pos hc, if_pos hc]
      · rw [if_neg hc, if_neg hc]
    · rw [hfold, List.map_map]
      have hcongr : (dfZeroOrders 0 market).map ((fun r => r.order_quantity) ∘
          (fun r => if r.label ∈ intRange s e
            then { r with order_quantity := total / ((e - s + 1 : Int) : ℚ) } else r)) =
          (dfZeroOrders 0 market).map (fun r => if s ≤ r.label ∧ r.label ≤ e
            then total / ((e - s + 1 : Int) : ℚ) else 0) := by
        apply List.map_congr_left
        intro r hr
        obtain ⟨-, hq0⟩ := dfZeroOrders_mem market 0 r hr
        by_cases hmem : r.label ∈ intRange s e
        · have hmem2 := (mem_intRange s e r.label).mp hmem
          simp [Function.comp, hmem, hmem2]
        · have hmem2 : ¬(s ≤ r.label ∧ r.label ≤ e) := fun hc =>
            hmem ((mem_intRange s e r.label).mpr hc)
          simp [Function.comp, hmem, hmem2, hq0]
      rw [hcongr, sum_ite_interval _ _ s e (by omega)]
      rw [sum_ite_ge _ s market 0 (by push_cast; omega) (by push_cast; omega)]
      rw [sum_ite_ge _ (e + 1) market 0 (by push_cast; omega) (by push_cast; omega)]
      have hne : ((e : ℚ) - s + 1) ≠ 0 := by
        have hint : ((e - s + 1 : Int) : ℚ) ≠ 0 := Int.cast_ne_zero.mpr (by omega)
        push_cast at hint
        exact hint
      push_cast
      field_simp
      ring
  · have hnil := intRange_nil s e (not_le.mp hse)
    have hfold : TWAPStrategy.generate_orders ⟨total, s, e⟩ market =
        dfZeroOrders 0 market := by
      simp only [TWAPStrategy.generate_orders, hnil, List.foldl_nil]
    refine ⟨?_, fun hco => absurd hco hse, fun _ p hp => ?_⟩
    · rw [hfold, dfZeroOrders_length]
    · rw [hfold, dfZeroOrders_getD market 0 p hp]

/-- Witness for C2 at the scenario of §8: total `9` over indices
`0..2` of a three-period series gives `3` per slice and sums to `9`. -/
theorem generate_orders_twap_witness :
    ((0 : ℚ) ≤ 9 ∧ (0 : Int) ≤ 0 ∧
      (2 : Int) < (([(⟨10, 5⟩ : MarketRow), ⟨20, 5⟩, ⟨30, 5⟩]).length : Int) ∧ (0 : Int) ≤ 2) ∧
    (TWAPStrategy.generate_orders ⟨9, 0, 2⟩ [⟨10, 5⟩, ⟨20, 5⟩, ⟨30, 5⟩]).length = 3 ∧
    ((TWAPStrategy.generate_orders ⟨9, 0, 2⟩ [⟨10, 5⟩, ⟨20, 5⟩, ⟨30, 5⟩]).getD 1
        dummySched).order_quantity = 3 ∧
    ((TWAPStrategy.generate_orders ⟨9, 0, 2⟩ [⟨10, 5⟩, ⟨20, 5⟩, ⟨30, 5⟩]).map
      (fun r => r.order_quantity)).sum = 9 := by
  have h := generate_orders_twap 9 0 2 [⟨10, 5⟩, ⟨20, 5⟩, ⟨30, 5⟩]
    (by norm_num) (by norm_num) (by norm_num)
  obtain ⟨hlen, hwin, -⟩ := h
  obtain ⟨hpt, hsum⟩ := hwin (by norm_num)
  refine ⟨⟨by norm_num, by norm_num, by norm_num, by norm_num⟩, by rw [hlen]; rfl, ?_, hsum⟩
  rw [hpt 1 (by norm_num), if_pos (by constructor <;> norm_num)]
  norm_num

/-! ### Helper lemmas and claim for the frame / ownership property -/

lemma store_getD_set_ne :
    ∀ (σ : Store) (i j : Nat) (v : DataFrame), j ≠ i →
      (σ.set i v).getD j emptyDF = σ.getD j emptyDF := by
  intro σ
  induction σ with
  | nil => intro i j v _; simp
  | cons a t ih =>
    intro i j v hne
    cases i with
    | zero =>
      cases j with
      | zero => exact absurd rfl hne
      | succ j => simp
    | succ i =>
      cases j with
      | zero => simp
      | succ j =>
        simp only [List.set_cons_succ, List.getD_cons_succ]
        exact ih i j v (fun hc => hne (by rw [hc]))

lemma store_getD_append_left :
    ∀ (σ : Store) (x : DataFrame) (j : Nat), j < σ.length →
      (σ ++ [x]).getD j emptyDF = σ.getD j emptyDF := by
  intro σ
  induction σ with
  | nil => intro x j h; simp at h
  | cons a t ih =>
    intro x j h
    cases j with
    | zero => simp
    | succ j =>
      simp only [List.cons_append, List.getD_cons_succ]
      exact ih x j (by simpa using h)

/-- Store frames other than the slot of the backtester are untouched by
any sequence of `run` calls. -/
lemma storeRunSeq_other (slip : ℚ) :
    ∀ (scheds : List (List (Int × ℚ))) (σ : Store) (ref j : Nat), j ≠ ref →
      (storeRunSeq slip ref scheds σ).getD j emptyDF = σ.getD j emptyDF := by
  intro scheds
  induction scheds with
  | nil => intro σ ref j _; rfl
  | cons o os ih =>
    intro σ ref j hne
    show (storeRunSeq slip ref os (storeRun slip o σ ref)).getD j emptyDF = _
    rw [ih (storeRun slip o σ ref) ref j hne, storeRun, store_getD_set_ne _ _ _ _ hne]

/-- C9: the backtester operates only on the working copy allocated at
construction; after construction and any sequence of `run` calls the
original frame of the caller is unchanged. -/
theorem run_preserves_caller_frame (σ : Store) (callerRef : Nat) (slip : ℚ)
    (scheds : List (List (Int × ℚ))) (h : callerRef < σ.length) :
    (storeRunSeq slip (storeInit σ callerRef).2 scheds (storeInit σ callerRef).1).getD
        callerRef emptyDF = σ.getD callerRef emptyDF := by
  have hne : callerRef ≠ (storeInit σ callerRef).2 := by
    show callerRef ≠ σ.length
    omega
  rw [storeRunSeq_other slip scheds _ _ _ hne]
  exact store_getD_append_left σ _ callerRef h

/-- Witness for C9: one caller frame, one backtester, one `run` with a
filled period — the slot of the caller still holds the original frame. -/
theorem run_preserves_caller_frame_witness :
    (0 < ([(⟨true, [⟨10, 5, 1, 0, none, none⟩]⟩ : DataFrame)] : Store).length) ∧
    (storeRunSeq (1/10) (storeInit [(⟨true, [⟨10, 5, 1, 0, none, none⟩]⟩ : DataFrame)] 0).2
        [[((0 : Int), (1 : ℚ))]]
        (storeInit [(⟨true, [⟨10, 5, 1, 0, none, none⟩]⟩ : DataFrame)] 0).1).getD 0 emptyDF
      = ([(⟨true, [⟨10, 5, 1, 0, none, none⟩]⟩ : DataFrame)] : Store).getD 0 emptyDF :=
  ⟨by norm_num,
    run_preserves_caller_frame [(⟨true, [⟨10, 5, 1, 0, none, none⟩]⟩ : DataFrame)] 0 (1/10)
      [[((0 : Int), (1 : ℚ))]] (by norm_num)⟩

end Backtest
